import Mathlib

/-!
Verification of the Picuki bulk media downloader (`main.py`) against its
natural-language specification.

The Python source is shallowly embedded: each function is translated into a
pure Lean function; filesystem state is passed explicitly as a `FS` value;
observable side effects (directory creation, console output, network
requests, file writes) are recorded as a trace of `Action`s; Python
exceptions become explicit outcome constructors or `Except` errors.
Library calls whose behaviour the program does not depend on
(`os.path.realpath`, `hashlib.md5(...).hexdigest()`, the permission state
of the filesystem) are abstracted as function parameters.
-/

set_option autoImplicit false

namespace Picuki

/-- `os.path.join a b` for the relative components the program builds. -/
def joinPath (a b : String) : String := a ++ "/" ++ b

/-- Filesystem state visible to the program: the set of existing regular
files and the set of existing directories, each named by full path. -/
structure FS where
  files : List String
  dirs : List String
  deriving DecidableEq

/-- `os.path.exists`: true for files and directories alike. -/
def pathExists (fs : FS) (p : String) : Bool :=
  fs.files.contains p || fs.dirs.contains p

/-- Observable side effects of the embedded code, in program order. -/
inductive Action where
  | mkdir (path : String)
  | consolePrint (msg : String)
  | logWarning (msg : String)
  | httpGet (url : String)
  | writeFile (path : String)
  deriving DecidableEq

/-- Is this action a network request? -/
def isNetworkRequest : Action → Bool
  | .httpGet _ => true
  | _ => false

/-- Is this action a file write? -/
def isFileWrite : Action → Bool
  | .writeFile _ => true
  | _ => false

/-- How one call to `_download_media` ends. -/
inductive DownloadOutcome where
  /-- `assert url is not None` failed: `AssertionError` propagates. -/
  | assertError
  /-- `os.makedirs` raised `PermissionError`: warning logged, early return. -/
  | permissionDenied
  /-- `not os.path.exists(filename)` branch: prints a message; the call to
  `_download_file_async` is commented out, so nothing else happens. -/
  | notExistsBranch
  /-- `os.path.exists(filename)` branch: prints the skipping message. -/
  | skipExists
  deriving DecidableEq

/-- Result of one `_download_media` call: its outcome, its effect trace and
the filesystem it leaves behind. -/
structure DMResult where
  outcome : DownloadOutcome
  actions : List Action
  fs : FS
  deriving DecidableEq

/-- `output_folder = os.path.join(os.path.realpath(output), username, media_type)`
(line 53 of `main.py`). -/
def outputFolder (realpath : String → String) (output username mediaType : String) : String :=
  joinPath (joinPath (realpath output) username) mediaType

/-- Shallow embedding of `_download_media(url, username, media_type, output)`
(`main.py` lines 47-70).  `realpath` models `os.path.realpath`, `md5hex`
models `hashlib.md5(url.encode()).hexdigest()`, and `permDenied` tells which
directories `os.makedirs` fails on with `PermissionError`. -/
def downloadMedia (realpath md5hex : String → String) (permDenied : String → Bool)
    (fs : FS) (url : Option String) (username mediaType : String)
    (output : String := "./") : DMResult :=
  match url with
  | none => ⟨.assertError, [], fs⟩
  | some u =>
    let folder := outputFolder realpath output username mediaType
    let filename := joinPath folder (md5hex u)
    if !pathExists fs folder then
      if permDenied folder then
        ⟨.permissionDenied,
          [.logWarning ("Directory output: " ++ folder ++ " is not writeable!")], fs⟩
      else
        let fs' : FS := { fs with dirs := folder :: fs.dirs }
        if !pathExists fs' filename then
          ⟨.notExistsBranch,
            [.mkdir folder, .consolePrint ("[green] " ++ filename ++ " [green] file exists!")],
            fs'⟩
        else
          ⟨.skipExists,
            [.mkdir folder,
              .consolePrint ("[green] Skipping.. [blue]" ++ filename ++ " [green] file exists!")],
            fs'⟩
    else
      if !pathExists fs filename then
        ⟨.notExistsBranch,
          [.consolePrint ("[green] " ++ filename ++ " [green] file exists!")], fs⟩
      else
        ⟨.skipExists,
          [.consolePrint ("[green] Skipping.. [blue]" ++ filename ++ " [green] file exists!")], fs⟩

/-- A download task as dispatched by `_main`: the URL (possibly absent when
`dict.get` returned `None`), the username, and the `media_type` / `output`
arguments of the corresponding `_download_media` call. -/
structure Task where
  url : Option String
  username : String
  mediaType : String
  output : String
  deriving DecidableEq

/-- The directory a task's `_download_media` call targets. -/
def Task.folder (realpath : String → String) (t : Task) : String :=
  outputFolder realpath t.output t.username t.mediaType

/-- Run one task: thread the filesystem through `_download_media`. -/
def runTask (realpath md5hex : String → String) (permDenied : String → Bool)
    (fs : FS) (t : Task) : DMResult :=
  downloadMedia realpath md5hex permDenied fs t.url t.username t.mediaType t.output

/-- Run a list of download tasks sequentially, as the per-item loop of
`_main` does, collecting the outcomes and the concatenated effect trace. -/
def runTasks (realpath md5hex : String → String) (permDenied : String → Bool) :
    FS → List Task → FS × List DownloadOutcome × List Action
  | fs, [] => (fs, [], [])
  | fs, t :: ts =>
    let r := runTask realpath md5hex permDenied fs t
    let rest := runTasks realpath md5hex permDenied r.fs ts
    (rest.1, r.outcome :: rest.2.1, r.actions ++ rest.2.2)

/-! ### `_download_file_async` (`main.py` lines 72-107) -/

/-- An HTTP response as `_download_file_async` observes it: the
`Content-Type` header (possibly absent), the advertised `content-length`,
and the sizes of the streamed body chunks. -/
structure HttpResponse where
  contentType : Option String
  contentLength : Nat
  chunks : List Nat
  deriving DecidableEq

/-- How one call to `_download_file_async` ends. -/
inductive FetchResult where
  /-- `asyncio.TimeoutError` caught: prints "Download timed out." and returns. -/
  | timedOut
  /-- No `Content-Type` header: `ValueError` raised before any file is
  opened; the only enclosing handler catches `asyncio.TimeoutError`, so the
  error propagates. -/
  | unknownContentType (url : String)
  /-- Body streamed to `savedAs` (the filename extended with the
  content-type subtype). -/
  | completed (savedAs : String)
  deriving DecidableEq

/-- Python's `str.split(c)` on a list of characters (for a one-character
separator): splits at every occurrence, keeping empty components. -/
def splitOnCharList (c : Char) : List Char → List (List Char)
  | [] => [[]]
  | ch :: rest =>
    match splitOnCharList c rest with
    | [] => [[]]
    | g :: gs => if ch = c then [] :: g :: gs else (ch :: g) :: gs

/-- `extension.split('/')[-1]`: the last component of the split. -/
def lastSlashComponent (s : String) : String :=
  ⟨(splitOnCharList '/' s.data).getLastD []⟩

/-- Shallow embedding of `_download_file_async(url, filename)`.  The
response is `none` when the GET itself times out.  The extension appended
to `filename` is `extension.split('/')[-1]` of the `Content-Type` value. -/
def downloadFileAsync (url filename : String) (resp : Option HttpResponse) :
    FetchResult × List Action :=
  match resp with
  | none => (.timedOut, [.httpGet url, .consolePrint "Download timed out."])
  | some r =>
    match r.contentType with
    | none => (.unknownContentType url, [.httpGet url])
    | some ct =>
      let saved := filename ++ "." ++ lastSlashComponent ct
      (.completed saved,
        [.httpGet url, .writeFile saved,
          .consolePrint ("[green] Completed.. saved as: [blue]" ++ saved)])

/-! ### `calculate_total_size` (`main.py` lines 109-128) -/

/-- One top-level entry of the `<username>` directory: its name, whether it
is a directory, and (when it is) the sizes of the files it contains, in
`iterdir` order. -/
structure DirEntry where
  name : String
  isDir : Bool
  fileSizes : List Nat
  deriving DecidableEq

/-- Python exceptions escaping `calculate_total_size`. -/
inductive SizeError where
  /-- `total_size[media_type]` with a key missing from the dict. -/
  | keyError (k : String)
  /-- `glob.iterdir()` on a non-directory entry. -/
  | notADirectory (name : String)
  deriving DecidableEq

/-- The `total_size` dict, as an ordered association list. -/
abbrev SizeDict := List (String × Nat)

/-- `total_size[k]`: lookup that raises `KeyError` when `k` is absent. -/
def dictGet (d : SizeDict) (k : String) : Except SizeError Nat :=
  match d.find? (fun p => p.1 == k) with
  | some p => .ok p.2
  | none => .error (.keyError k)

/-- `total_size[k] += v`: raises `KeyError` when `k` is absent. -/
def dictIncr (d : SizeDict) (k : String) (v : Nat) : Except SizeError SizeDict :=
  match dictGet d k with
  | .error e => .error e
  | .ok _ => .ok (d.map fun p => if p.1 == k then (p.1, p.2 + v) else p)

/-- The dict initialised at the top of `calculate_total_size`. -/
def initialTotals : SizeDict :=
  [("total", 0), ("images", 0), ("videos", 0), ("thumbnails", 0)]

/-- Inner loop body over the files of one media-type directory:
`total_size[media_type] += file_size; total_size["total"] += file_size`. -/
def sumFiles (mediaType : String) : List Nat → SizeDict → Except SizeError SizeDict
  | [], d => .ok d
  | sz :: rest, d =>
    match dictIncr d mediaType sz with
    | .error e => .error e
    | .ok d1 =>
      match dictIncr d1 "total" sz with
      | .error e => .error e
      | .ok d2 => sumFiles mediaType rest d2

/-- Outer loop over the `glob("*")` entries of the username directory;
`iterdir()` on a non-directory raises. -/
def sumEntries : List DirEntry → SizeDict → Except SizeError SizeDict
  | [], d => .ok d
  | e :: rest, d =>
    if e.isDir then
      match sumFiles e.name e.fileSizes d with
      | .error err => .error err
      | .ok d' => sumEntries rest d'
    else
      .error (.notADirectory e.name)

/-- Shallow embedding of `calculate_total_size(username)`: the username
directory's top-level entries are given explicitly. -/
def calculate_total_size (entries : List DirEntry) : Except SizeError SizeDict :=
  sumEntries entries initialTotals

/-- `fullpath = os.path.realpath(username)`: the root of the tree the final
size summary scans (`main.py` line 120). -/
def sizeScanRoot (realpath : String → String) (username : String) : String :=
  realpath username

/-! ### CLI gate and media selection (`main.py` lines 154-161, 243-264) -/

/-- Parsed command-line arguments. -/
structure Args where
  username : Option String
  images : Bool
  videos : Bool
  thumbnails : Bool
  all : Bool
  verbose : Bool
  deriving DecidableEq

/-- Python truthiness of the optional `--username` string. -/
def argTruthy : Option String → Bool
  | none => false
  | some s => !s.isEmpty

/-- What the `__main__` block does with the parsed arguments. -/
inductive CliAction where
  | runPipeline
  | printHelp
  deriving DecidableEq

/-- The gate at `main.py` line 258:
`if args.username and any([args.images, args.videos, args.thumbnails, args.all, args.verbose])`. -/
def cliMain (a : Args) : CliAction :=
  if argTruthy a.username &&
      (a.images || a.videos || a.thumbnails || a.all || a.verbose) then
    .runPipeline
  else
    .printHelp

/-- `kwargs.get(select)` for the three media-type keys of `_main`. -/
def mediaFlag (a : Args) : String → Bool
  | "images" => a.images
  | "videos" => a.videos
  | "thumbnails" => a.thumbnails
  | _ => false

/-- `selected` as computed in `_main` lines 158-161. -/
def selectedMedia (a : Args) : List String :=
  if a.all then ["images", "videos", "thumbnails"]
  else ["images", "videos", "thumbnails"].filter (mediaFlag a)

/-! ### Per-item download dispatch in `_main` (lines 189-225) -/

/-- One entry of a content record's `videos` list. -/
structure VideoEntry where
  url : Option String
  thumbnail : Option String
  deriving DecidableEq

/-- The `media` payload popped from a content record. -/
structure MediaPayload where
  images : List String
  videos : List VideoEntry
  deriving DecidableEq

/-- The `_download_media` calls `_main` issues for one content record, in
program order.  Note the `output` argument each call site passes: `"images"`,
`"thumbnails"` and `"videos"` respectively — the media type, not an output
root. -/
def deriveTasks (username : String) (selected : List String) (media : MediaPayload) :
    List Task :=
  (if selected.contains "images" then
    media.images.map (fun img => Task.mk (some img) username "images" "images")
  else []) ++
  (if selected.contains "videos" || selected.contains "thumbnails" then
    (media.videos.map (fun v =>
      (if selected.contains "thumbnails" then
        [Task.mk v.thumbnail username "thumbnails" "thumbnails"]
      else []) ++
      (if selected.contains "videos" then
        [Task.mk v.url username "videos" "videos"]
      else []))).flatten
  else [])

/-! ### The per-item exception handling of `_main` (lines 181-239) -/

/-- Python exception classes relevant to the per-item `try` block. -/
inductive PyExc where
  /-- `httpx.ReadTimeout` -/
  | readTimeout
  /-- `asyncio.exceptions.CancelledError` -/
  | cancelledError
  /-- `ssl.SSLWantReadError` -/
  | sslWantRead
  /-- a connection reset (`ConnectionResetError` / `httpx.ConnectError`) -/
  | connectionReset
  /-- `AssertionError` -/
  | assertionError
  /-- any other exception class -/
  | other (name : String)
  deriving DecidableEq

/-- Does the first `except` clause (line 232) catch `e`?  It names
`(httpx.ReadTimeout, asyncio.exceptions.CancelledError, SSLWantReadError)`. -/
def firstClauseCatches : PyExc → Bool
  | .readTimeout => true
  | .cancelledError => true
  | .sslWantRead => true
  | _ => false

/-- Does the second `except` clause (line 236) catch `e`?  It names
`(asyncio.exceptions.CancelledError, SSLWantReadError)`. -/
def secondClauseCatches : PyExc → Bool
  | .cancelledError => true
  | .sslWantRead => true
  | _ => false

/-- Which handler an exception raised in the `try` body reaches: Python
tries `except` clauses in order and takes the first match. -/
inductive ExcHandler where
  | firstClause
  | secondClause
  | uncaught
  deriving DecidableEq

/-- Exception dispatch for the per-item `try` statement. -/
def dispatchException (e : PyExc) : ExcHandler :=
  if firstClauseCatches e then .firstClause
  else if secondClauseCatches e then .secondClause
  else .uncaught

/-- Behaviour of one iteration's `try` body for a given MediaID: the content
resolution returned a record, returned something falsy, or the body raised. -/
inductive ItemStep where
  | content (m : MediaPayload)
  | noContent
  | raises (e : PyExc)
  deriving DecidableEq

/-- Is this step one the loop recovers from: a (possibly falsy) content
record, or an exception named by a matching `except` clause? -/
def stepRecoverable : ItemStep → Bool
  | .content _ => true
  | .noContent => true
  | .raises e => firstClauseCatches e || secondClauseCatches e

/-- The per-item loop of `_main`: iterate over the media IDs' step
behaviours; a caught exception logs and continues, an uncaught one
propagates and aborts the loop.  Returns the number of items processed. -/
def mediaLoop : List ItemStep → Except PyExc Nat
  | [] => .ok 0
  | s :: rest =>
    match s with
    | .content _ => (mediaLoop rest).map (· + 1)
    | .noContent => (mediaLoop rest).map (· + 1)
    | .raises e =>
      match dispatchException e with
      | .firstClause => (mediaLoop rest).map (· + 1)
      | .secondClause => (mediaLoop rest).map (· + 1)
      | .uncaught => .error e

/-! ### Concrete instantiations of the abstracted library calls, used by
counterexamples and witnesses. -/

/-- A concrete model of `os.path.realpath` with working directory `/cwd`. -/
def rpC : String → String := fun p => if p = "./" then "/cwd" else "/cwd/" ++ p

/-- A concrete stand-in for the MD5 hex digest. -/
def md5C : String → String := fun _ => "abc"

/-- A permission model in which every directory is writable. -/
def pdC : String → Bool := fun _ => false

/-- An initially empty filesystem. -/
def fs0 : FS := ⟨[], []⟩

/-- The task `_main` dispatches for one image URL of user `alice`. -/
def t0 : Task := ⟨some "http://img", "alice", "images", "images"⟩

/-! ## Theorems -/

/-- C7: in the per-item loop of `_main`, the second `except` clause
(catching `asyncio.exceptions.CancelledError` and `SSLWantReadError`) is
dead code: every exception it would catch is already caught by the first
`except` clause, so exception dispatch never reaches the second clause. -/
theorem second_except_clause_dead (e : PyExc) :
    dispatchException e ≠ ExcHandler.secondClause := by
  cases e <;> simp [dispatchException, firstClauseCatches, secondClauseCatches]

/-- C5 counterexample: with `--username alice --verbose` and none of
`--images`, `--videos`, `--thumbnails`, `--all` set, the gate at line 258
runs the pipeline instead of printing help, because `args.verbose` is part
of the `any([...])` — refuting the claim that help is printed whenever the
four media flags are all unset. -/
theorem verbose_only_runs_pipeline :
    cliMain ⟨some "alice", false, false, false, false, true⟩ = CliAction.runPipeline ∧
      cliMain ⟨some "alice", false, false, false, false, true⟩ ≠ CliAction.printHelp := by
  constructor <;> decide

/-- C5 (amended): help is printed iff the username is missing/empty or all
five flags `--images --videos --thumbnails --all --verbose` are unset;
`--username` plus `--verbose` alone passes the gate, with an empty media
selection. -/
theorem cli_gate_iff (a : Args) (u : Option String) (v : Bool) :
    (cliMain a = CliAction.printHelp ↔
      (argTruthy a.username = false ∨
        (a.images = false ∧ a.videos = false ∧ a.thumbnails = false ∧
          a.all = false ∧ a.verbose = false))) ∧
    selectedMedia ⟨u, false, false, false, false, v⟩ = [] := by
  refine ⟨?_, rfl⟩
  cases a with
  | mk un im vi th al ve =>
    cases un with
    | none => simp [cliMain, argTruthy]
    | some s =>
      cases h : s.isEmpty <;> cases im <;> cases vi <;> cases th <;> cases al <;> cases ve <;>
        simp [cliMain, argTruthy, h]

/-- C6 counterexample: an exception modelling a connection reset raised
while processing the first MediaID is caught by neither `except` clause, so
the loop aborts instead of logging and continuing to the next MediaID —
refuting the claim that a connection reset is a recoverable per-item
failure. -/
theorem connection_reset_aborts_loop :
    mediaLoop [ItemStep.raises PyExc.connectionReset, ItemStep.noContent] =
      Except.error PyExc.connectionReset ∧
    mediaLoop [ItemStep.raises PyExc.connectionReset, ItemStep.noContent] ≠
      Except.ok 2 :=
  ⟨rfl, fun h => Except.noConfusion h⟩

/-- C6 (amended): a falsy content record, or an exception among
`httpx.ReadTimeout`, `asyncio.exceptions.CancelledError` and
`SSLWantReadError`, is logged and the loop continues: when every raised
exception is one of those three, all MediaIDs are processed.  Any other
exception (such as a connection reset) propagates and aborts the run. -/
theorem media_loop_recovers_caught (steps : List ItemStep)
    (hs : ∀ e, ItemStep.raises e ∈ steps →
      e = PyExc.readTimeout ∨ e = PyExc.cancelledError ∨ e = PyExc.sslWantRead) :
    mediaLoop steps = Except.ok steps.length := by
  induction steps with
  | nil => rfl
  | cons s rest ih =>
    have hrest : ∀ e, ItemStep.raises e ∈ rest →
        e = PyExc.readTimeout ∨ e = PyExc.cancelledError ∨ e = PyExc.sslWantRead :=
      fun e he => hs e (List.mem_cons_of_mem _ he)
    cases s with
    | content m => simp [mediaLoop, ih hrest, Except.map]
    | noContent => simp [mediaLoop, ih hrest, Except.map]
    | raises e =>
      rcases hs e (List.mem_cons_self _ _) with h | h | h <;> subst h <;>
        simp [mediaLoop, dispatchException, firstClauseCatches, ih hrest, Except.map]

/-- C6 witness: a run with a falsy content record and a read timeout
processes both items. -/
theorem media_loop_recovers_caught_witness :
    mediaLoop [ItemStep.noContent, ItemStep.raises PyExc.readTimeout] = Except.ok 2 := by
  have h := media_loop_recovers_caught
    [ItemStep.noContent, ItemStep.raises PyExc.readTimeout]
    (by
      intro e he
      rcases List.mem_cons.mp he with h1 | h1
      · cases h1
      · rcases List.mem_cons.mp h1 with h2 | h2
        · cases h2; exact Or.inl rfl
        · cases h2)
  simpa using h

/-- C8: a response with no `Content-Type` header makes the fetch fail (the
`ValueError` modelled as `unknownContentType` propagates past the handler,
which only catches timeouts) with no file written — in particular no file
with a `None` extension; when the header holds `type/subtype`, the saved
file's extension is `.subtype` (e.g. `.jpeg` for `image/jpeg`, `.mp4` for
`video/mp4`). -/
theorem missing_content_type_fails (url filename : String) (len : Nat) (chunks : List Nat) :
    downloadFileAsync url filename (some ⟨none, len, chunks⟩) =
      (FetchResult.unknownContentType url, [Action.httpGet url]) ∧
    (downloadFileAsync url filename (some ⟨none, len, chunks⟩)).2.all
      (fun a => !isFileWrite a) = true ∧
    (downloadFileAsync url filename (some ⟨some "image/jpeg", len, chunks⟩)).1 =
      FetchResult.completed (filename ++ "." ++ "jpeg") ∧
    (downloadFileAsync url filename (some ⟨some "video/mp4", len, chunks⟩)).1 =
      FetchResult.completed (filename ++ "." ++ "mp4") := by
  have hj : lastSlashComponent "image/jpeg" = "jpeg" := by decide
  have hm : lastSlashComponent "video/mp4" = "mp4" := by decide
  refine ⟨rfl, rfl, ?_, ?_⟩ <;> simp [downloadFileAsync, hj, hm]

/-- C9 counterexample: an empty-string URL passes `assert url is not None`
(only `None` fails it), so `_download_media` does not fail fast: on an
empty filesystem it creates the destination directory and reaches the
existence check, refuting the claim for empty (as opposed to absent)
source URLs. -/
theorem empty_url_not_rejected :
    (downloadMedia rpC md5C pdC fs0 (some "") "alice" "images" "images").outcome ≠
      DownloadOutcome.assertError ∧
    (downloadMedia rpC md5C pdC fs0 (some "") "alice" "images" "images").actions.any
      (fun a => match a with | Action.mkdir _ => true | _ => false) = true := by
  constructor <;> decide

/-- C9 (amended): only an absent (`None`) URL fails fast — the
`AssertionError` is raised before any directory creation, existence check
or network activity, with no effect on the filesystem; any `some` URL,
including the empty string, passes the assert and never ends in
`assertError`. -/
theorem none_url_fails_fast (rp md5 : String → String) (pd : String → Bool)
    (fs : FS) (username mt out : String) :
    downloadMedia rp md5 pd fs none username mt out = ⟨DownloadOutcome.assertError, [], fs⟩ ∧
    ∀ u : String,
      (downloadMedia rp md5 pd fs (some u) username mt out).outcome ≠
        DownloadOutcome.assertError := by
  refine ⟨rfl, ?_⟩
  intro u
  simp only [downloadMedia]
  repeat' split
  all_goals simp

/-! ### Invariant of the `total_size` dict -/

/-- The shape `calculate_total_size`'s dict keeps when only the three
media-type keys are incremented: the `"total"` entry is the sum of the
other three. -/
def totalsDict (i v t : Nat) : SizeDict :=
  [("total", i + v + t), ("images", i), ("videos", v), ("thumbnails", t)]

theorem sumFiles_images_step (sz : Nat) (szs : List Nat) (T i v t : Nat) :
    sumFiles "images" (sz :: szs)
        [("total", T), ("images", i), ("videos", v), ("thumbnails", t)] =
      sumFiles "images" szs
        [("total", T + sz), ("images", i + sz), ("videos", v), ("thumbnails", t)] := rfl

theorem sumFiles_videos_step (sz : Nat) (szs : List Nat) (T i v t : Nat) :
    sumFiles "videos" (sz :: szs)
        [("total", T), ("images", i), ("videos", v), ("thumbnails", t)] =
      sumFiles "videos" szs
        [("total", T + sz), ("images", i), ("videos", v + sz), ("thumbnails", t)] := rfl

theorem sumFiles_thumbnails_step (sz : Nat) (szs : List Nat) (T i v t : Nat) :
    sumFiles "thumbnails" (sz :: szs)
        [("total", T), ("images", i), ("videos", v), ("thumbnails", t)] =
      sumFiles "thumbnails" szs
        [("total", T + sz), ("images", i), ("videos", v), ("thumbnails", t + sz)] := rfl

theorem sumFiles_shape (k : String)
    (hk : k = "images" ∨ k = "videos" ∨ k = "thumbnails")
    (szs : List Nat) (i v t : Nat) :
    ∃ i' v' t', sumFiles k szs (totalsDict i v t) = Except.ok (totalsDict i' v' t') := by
  induction szs generalizing i v t with
  | nil => exact ⟨i, v, t, rfl⟩
  | cons sz rest ih =>
    rcases hk with h | h | h <;> subst h
    · have hstep : sumFiles "images" (sz :: rest) (totalsDict i v t) =
          sumFiles "images" rest (totalsDict (i + sz) v t) := by
        rw [show totalsDict i v t =
            [("total", i + v + t), ("images", i), ("videos", v), ("thumbnails", t)] from rfl,
          sumFiles_images_step, show i + v + t + sz = (i + sz) + v + t from by omega]
        rfl
      rw [hstep]; exact ih (i + sz) v t
    · have hstep : sumFiles "videos" (sz :: rest) (totalsDict i v t) =
          sumFiles "videos" rest (totalsDict i (v + sz) t) := by
        rw [show totalsDict i v t =
            [("total", i + v + t), ("images", i), ("videos", v), ("thumbnails", t)] from rfl,
          sumFiles_videos_step, show i + v + t + sz = i + (v + sz) + t from by omega]
        rfl
      rw [hstep]; exact ih i (v + sz) t
    · have hstep : sumFiles "thumbnails" (sz :: rest) (totalsDict i v t) =
          sumFiles "thumbnails" rest (totalsDict i v (t + sz)) := by
        rw [show totalsDict i v t =
            [("total", i + v + t), ("images", i), ("videos", v), ("thumbnails", t)] from rfl,
          sumFiles_thumbnails_step, show i + v + t + sz = i + v + (t + sz) from by omega]
        rfl
      rw [hstep]; exact ih i v (t + sz)

theorem sumEntries_shape (entries : List DirEntry)
    (h : ∀ e ∈ entries, e.isDir = true ∧
      (e.name = "images" ∨ e.name = "videos" ∨ e.name = "thumbnails"))
    (i v t : Nat) :
    ∃ i' v' t', sumEntries entries (totalsDict i v t) = Except.ok (totalsDict i' v' t') := by
  induction entries generalizing i v t with
  | nil => exact ⟨i, v, t, rfl⟩
  | cons e rest ih =>
    obtain ⟨hd, hn⟩ := h e (List.mem_cons_self _ _)
    obtain ⟨i', v', t', hf⟩ := sumFiles_shape e.name hn e.fileSizes i v t
    have hstep : sumEntries (e :: rest) (totalsDict i v t) =
        sumEntries rest (totalsDict i' v' t') := by
      simp [sumEntries, hd, hf]
    rw [hstep]
    exact ih (fun e' he' => h e' (List.mem_cons_of_mem _ he')) i' v' t'

/-- C10 counterexample: a top-level directory named `total` does not raise
`KeyError` — `"total"` is a key of the accumulator dict — and instead every
file size inside it is added to the `"total"` entry twice, so the call
succeeds with `total = 10` for one 5-byte file while the three media-type
entries stay 0. -/
theorem total_dir_no_keyerror :
    calculate_total_size [⟨"total", true, [5]⟩] =
      Except.ok [("total", 10), ("images", 0), ("videos", 0), ("thumbnails", 0)] := rfl

/-- C10 (amended): when every top-level entry under the username directory
is a directory named `images`, `videos` or `thumbnails`, the returned dict
has `total` equal to the sum of the `images`, `videos` and `thumbnails`
entries; a non-empty directory with any name outside the four dict keys
(so not `total` either, whose files are instead double-counted into the
`"total"` entry) makes the lookup `total_size[media_type]` raise an
uncaught `KeyError`; and a non-directory top-level entry makes `iterdir`
raise. -/
theorem calculate_total_size_spec (entries : List DirEntry) :
    ((∀ e ∈ entries, e.isDir = true ∧
        (e.name = "images" ∨ e.name = "videos" ∨ e.name = "thumbnails")) →
      ∃ i v t, calculate_total_size entries =
        Except.ok [("total", i + v + t), ("images", i), ("videos", v), ("thumbnails", t)]) ∧
    (∀ (n : String) (sz : Nat) (szs : List Nat) (rest : List DirEntry),
      n ≠ "total" → n ≠ "images" → n ≠ "videos" → n ≠ "thumbnails" →
      calculate_total_size (⟨n, true, sz :: szs⟩ :: rest) =
        Except.error (SizeError.keyError n)) ∧
    (∀ (n : String) (szs : List Nat) (rest : List DirEntry),
      calculate_total_size (⟨n, false, szs⟩ :: rest) =
        Except.error (SizeError.notADirectory n)) := by
  refine ⟨?_, ?_, ?_⟩
  · intro h
    obtain ⟨i, v, t, hf⟩ := sumEntries_shape entries h 0 0 0
    exact ⟨i, v, t, hf⟩
  · intro n sz szs rest h1 h2 h3 h4
    have e1 : ("total" == n) = false := beq_eq_false_iff_ne.mpr (Ne.symm h1)
    have e2 : ("images" == n) = false := beq_eq_false_iff_ne.mpr (Ne.symm h2)
    have e3 : ("videos" == n) = false := beq_eq_false_iff_ne.mpr (Ne.symm h3)
    have e4 : ("thumbnails" == n) = false := beq_eq_false_iff_ne.mpr (Ne.symm h4)
    simp [calculate_total_size, sumEntries, sumFiles, dictIncr, dictGet, initialTotals,
      List.find?, e1, e2, e3, e4]
  · intro n szs rest
    rfl

/-- C10 witness: one `images` directory holding files of 3 and 4 bytes
satisfies the well-named hypothesis, and the returned dict has the
`total = images + videos + thumbnails` shape. -/
theorem calculate_total_size_spec_witness :
    ∃ i v t, calculate_total_size [⟨"images", true, [3, 4]⟩] =
      Except.ok [("total", i + v + t), ("images", i), ("videos", v), ("thumbnails", t)] :=
  (calculate_total_size_spec [⟨"images", true, [3, 4]⟩]).1 (by
    intro e he
    simp only [List.mem_singleton] at he
    subst he
    exact ⟨rfl, Or.inl rfl⟩)

/-! ### Helper lemmas about paths and the `_download_media` effect trace -/

theorem joinPath_ne (a b : String) : joinPath a b ≠ a := by
  intro h
  have hlen := congrArg String.length h
  simp only [joinPath, String.length_append] at hlen
  rw [show ("/").length = 1 from rfl] at hlen
  omega

theorem pathExists_consDir (fs : FS) (folder p : String) (h : p ≠ folder) :
    pathExists ⟨fs.files, folder :: fs.dirs⟩ p = pathExists fs p := by
  simp [pathExists, List.contains_cons, h]

theorem downloadMedia_actions_clean (rp md5 : String → String) (pd : String → Bool)
    (fs : FS) (url : Option String) (username mt out : String) :
    (downloadMedia rp md5 pd fs url username mt out).actions.all
      (fun a => !isNetworkRequest a && !isFileWrite a) = true := by
  cases url with
  | none => rfl
  | some u =>
    simp only [downloadMedia]
    repeat' split
    all_goals simp [isNetworkRequest, isFileWrite]

theorem downloadMedia_files_eq (rp md5 : String → String) (pd : String → Bool)
    (fs : FS) (url : Option String) (username mt out : String) :
    (downloadMedia rp md5 pd fs url username mt out).fs.files = fs.files := by
  cases url with
  | none => rfl
  | some u =>
    simp only [downloadMedia]
    repeat' split
    all_goals rfl

theorem runTasks_actions_clean (rp md5 : String → String) (pd : String → Bool)
    (fs : FS) (ts : List Task) :
    (runTasks rp md5 pd fs ts).2.2.all
      (fun a => !isNetworkRequest a && !isFileWrite a) = true := by
  induction ts generalizing fs with
  | nil => rfl
  | cons t rest ih =>
    simp only [runTasks, List.all_append, Bool.and_eq_true]
    exact ⟨downloadMedia_actions_clean rp md5 pd fs t.url t.username t.mediaType t.output,
      ih _⟩

theorem runTasks_files_eq (rp md5 : String → String) (pd : String → Bool)
    (fs : FS) (ts : List Task) :
    (runTasks rp md5 pd fs ts).1.files = fs.files := by
  induction ts generalizing fs with
  | nil => rfl
  | cons t rest ih =>
    simp only [runTasks]
    rw [ih]
    exact downloadMedia_files_eq rp md5 pd fs t.url t.username t.mediaType t.output

theorem all_fst_of_all_and {l : List Action} {p q : Action → Bool}
    (h : l.all (fun a => p a && q a) = true) : l.all p = true := by
  simp only [List.all_eq_true, Bool.and_eq_true] at h ⊢
  exact fun a ha => (h a ha).1

/-- A filesystem holding the destination directory and a file whose name is
the hash with a `.jpg` extension — the situation the spec's prefix check is
about. -/
def fsPre : FS :=
  ⟨["/cwd/images/alice/images/abc.jpg"], ["/cwd/images/alice/images"]⟩

/-- C1 counterexample: a file whose name begins with the MD5 hash of the
URL (here `abc.jpg` for hash `abc`) exists in the destination directory,
yet `_download_media` does not skip: `os.path.exists` is an exact-path
check on the extension-less `<dir>/<hash>`, so the call takes the
not-exists branch — refuting the claimed prefix matching. -/
theorem hash_named_file_not_skipped :
    ((joinPath (outputFolder rpC "images" "alice" "images")
        (md5C "http://img")).data.isPrefixOf
      "/cwd/images/alice/images/abc.jpg".data = true ∧
      fsPre.files.contains "/cwd/images/alice/images/abc.jpg" = true) ∧
    (downloadMedia rpC md5C pdC fsPre (some "http://img") "alice" "images" "images").outcome ≠
      DownloadOutcome.skipExists := by
  constructor
  · constructor <;> decide
  · decide

/-- C1 (amended): under a writable destination, the task is skipped iff a
filesystem entry exists at the exact extension-less path `<dir>/<hash>`; a
file whose name merely begins with the hash does not trigger the skip.  In
either branch no network request is performed (the download call is
commented out). -/
theorem download_media_skip_iff_exact_path (rp md5 : String → String) (pd : String → Bool)
    (fs : FS) (u username mt out : String)
    (hp : pd (outputFolder rp out username mt) = false) :
    ((downloadMedia rp md5 pd fs (some u) username mt out).outcome =
        DownloadOutcome.skipExists ↔
      pathExists fs (joinPath (outputFolder rp out username mt) (md5 u)) = true) ∧
    (downloadMedia rp md5 pd fs (some u) username mt out).actions.all
      (fun a => !isNetworkRequest a) = true := by
  refine ⟨?_, all_fst_of_all_and
    (downloadMedia_actions_clean rp md5 pd fs (some u) username mt out)⟩
  have hne : joinPath (outputFolder rp out username mt) (md5 u) ≠
      outputFolder rp out username mt := joinPath_ne _ _
  by_cases hf : pathExists fs (outputFolder rp out username mt)
  · by_cases hfile : pathExists fs (joinPath (outputFolder rp out username mt) (md5 u)) <;>
      simp [downloadMedia, hf, hfile]
  · have hcons := pathExists_consDir fs (outputFolder rp out username mt)
      (joinPath (outputFolder rp out username mt) (md5 u)) hne
    by_cases hfile : pathExists fs (joinPath (outputFolder rp out username mt) (md5 u)) <;>
      simp [downloadMedia, hf, hp, hcons, hfile]

/-- C1 witness: on the empty filesystem the hash path does not exist, so
the call is not skipped. -/
theorem download_media_skip_iff_exact_path_witness :
    (downloadMedia rpC md5C pdC fs0 (some "u") "alice" "images" "images").outcome =
        DownloadOutcome.skipExists ↔
      pathExists fs0 (joinPath (outputFolder rpC "images" "alice" "images")
        (md5C "u")) = true :=
  (download_media_skip_iff_exact_path rpC md5C pdC fs0 "u" "alice" "images" "images" rfl).1

/-- C2: with a non-`None` URL and a writable destination, `_download_media`
performs no network request and writes no file: its whole effect trace is
free of fetches and writes, the set of regular files is unchanged, and the
outcome is one of the two print-and-return branches; moreover no run of the
download pipeline (any task list from any filesystem) ever performs a fetch
or writes a media file. -/
theorem download_media_no_fetch_no_write (rp md5 : String → String) (pd : String → Bool)
    (fs : FS) (u username mt out : String)
    (hp : pd (outputFolder rp out username mt) = false) :
    ((downloadMedia rp md5 pd fs (some u) username mt out).actions.all
        (fun a => !isNetworkRequest a && !isFileWrite a) = true) ∧
    (downloadMedia rp md5 pd fs (some u) username mt out).fs.files = fs.files ∧
    ((downloadMedia rp md5 pd fs (some u) username mt out).outcome =
        DownloadOutcome.notExistsBranch ∨
      (downloadMedia rp md5 pd fs (some u) username mt out).outcome =
        DownloadOutcome.skipExists) ∧
    (∀ (fs0 : FS) (ts : List Task),
      (runTasks rp md5 pd fs0 ts).2.2.all
        (fun a => !isNetworkRequest a && !isFileWrite a) = true ∧
      (runTasks rp md5 pd fs0 ts).1.files = fs0.files) := by
  refine ⟨downloadMedia_actions_clean rp md5 pd fs (some u) username mt out,
    downloadMedia_files_eq rp md5 pd fs (some u) username mt out, ?_,
    fun fs0 ts => ⟨runTasks_actions_clean rp md5 pd fs0 ts,
      runTasks_files_eq rp md5 pd fs0 ts⟩⟩
  by_cases hf : pathExists fs (outputFolder rp out username mt)
  · by_cases hfile : pathExists fs (joinPath (outputFolder rp out username mt) (md5 u)) <;>
      simp [downloadMedia, hf, hfile]
  · by_cases hfile : pathExists
        ⟨fs.files, outputFolder rp out username mt :: fs.dirs⟩
        (joinPath (outputFolder rp out username mt) (md5 u)) <;>
      simp [downloadMedia, hf, hp, hfile]

/-- C2 witness: concrete instantiation of the frame property. -/
theorem download_media_no_fetch_no_write_witness :
    (downloadMedia rpC md5C pdC fs0 (some "u") "alice" "images" "images").actions.all
      (fun a => !isNetworkRequest a && !isFileWrite a) = true :=
  (download_media_no_fetch_no_write rpC md5C pdC fs0 "u" "alice" "images" "images" rfl).1

/-- C4: evidence of the path-layout bug.  For the image task `_main`
dispatches for user `alice` (passing `output="images"`), the destination
directory is `realpath("images")/alice/images` — under working directory
`/cwd` that is `/cwd/images/alice/images` — not the claimed
`./alice/images`; and it does not lie inside `realpath("alice")`, the tree
`calculate_total_size` scans for the final summary, so downloads and the
size summary target disjoint trees. -/
theorem main_output_path_mismatch :
    deriveTasks "alice" ["images"] ⟨["http://img"], []⟩ = [t0] ∧
    Task.folder rpC t0 = "/cwd/images/alice/images" ∧
    sizeScanRoot rpC "alice" = "/cwd/alice" ∧
    Task.folder rpC t0 ≠ joinPath (joinPath (rpC "./") "alice") "images" ∧
    (sizeScanRoot rpC "alice" ++ "/").data.isPrefixOf (Task.folder rpC t0).data = false := by
  refine ⟨?_, ?_, ?_, ?_, ?_⟩ <;> decide

/-! ### Second-run analysis (idempotence of the download phase) -/

/-- `fs'` extends `fs`: same regular files, at least the same directories. -/
def FS.grows (fs fs' : FS) : Prop :=
  fs'.files = fs.files ∧ ∀ d ∈ fs.dirs, d ∈ fs'.dirs

theorem grows_refl (fs : FS) : FS.grows fs fs := ⟨rfl, fun _ hd => hd⟩

theorem grows_trans {a b c : FS} (h1 : FS.grows a b) (h2 : FS.grows b c) :
    FS.grows a c :=
  ⟨h2.1.trans h1.1, fun d hd => h2.2 d (h1.2 d hd)⟩

theorem pathExists_mono {fs fs' : FS} (h : FS.grows fs fs') {p : String}
    (hp : pathExists fs p = true) : pathExists fs' p = true := by
  have hp' : p ∈ fs.files ∨ p ∈ fs.dirs := by simpa [pathExists] using hp
  have hmem : p ∈ fs'.files ∨ p ∈ fs'.dirs := by
    rcases hp' with hm | hm
    · exact Or.inl (h.1 ▸ hm)
    · exact Or.inr (h.2 p hm)
  simpa [pathExists] using hmem

/-- The filesystem `_download_media` leaves when the destination directory
already exists: unchanged. -/
theorem downloadMedia_fs_of_exists (rp md5 : String → String) (pd : String → Bool)
    (fs : FS) (u username mt out : String)
    (hf : pathExists fs (outputFolder rp out username mt) = true) :
    (downloadMedia rp md5 pd fs (some u) username mt out).fs = fs := by
  simp only [downloadMedia, hf, Bool.not_true]
  rw [if_neg (by simp)]
  split <;> rfl

/-- The filesystem `_download_media` leaves when directory creation is
permission-denied: unchanged. -/
theorem downloadMedia_fs_of_denied (rp md5 : String → String) (pd : String → Bool)
    (fs : FS) (u username mt out : String)
    (hf : pathExists fs (outputFolder rp out username mt) = false)
    (hpd : pd (outputFolder rp out username mt) = true) :
    (downloadMedia rp md5 pd fs (some u) username mt out).fs = fs := by
  simp [downloadMedia, hf, hpd]

/-- The filesystem `_download_media` leaves after a successful `makedirs`:
the destination directory is added. -/
theorem downloadMedia_fs_of_mkdir (rp md5 : String → String) (pd : String → Bool)
    (fs : FS) (u username mt out : String)
    (hf : pathExists fs (outputFolder rp out username mt) = false)
    (hpd : pd (outputFolder rp out username mt) = false) :
    (downloadMedia rp md5 pd fs (some u) username mt out).fs =
      ⟨fs.files, outputFolder rp out username mt :: fs.dirs⟩ := by
  simp only [downloadMedia, hf, hpd, Bool.not_false]
  rw [if_pos trivial, if_neg (by simp)]
  split <;> rfl

/-- A task can no longer change the filesystem: its URL is absent, its
destination directory already exists, or creating it is permission-denied. -/
def taskSettled (rp : String → String) (pd : String → Bool) (fs : FS) (t : Task) : Prop :=
  t.url = none ∨ pathExists fs (t.folder rp) = true ∨ pd (t.folder rp) = true

theorem runTask_grows (rp md5 : String → String) (pd : String → Bool)
    (fs : FS) (t : Task) : FS.grows fs (runTask rp md5 pd fs t).fs := by
  constructor
  · exact (downloadMedia_files_eq rp md5 pd fs t.url t.username t.mediaType t.output)
  · intro d hd
    cases hu : t.url with
    | none => simp only [runTask, downloadMedia, hu]; exact hd
    | some u =>
      simp only [runTask, downloadMedia, hu]
      repeat' split
      all_goals first | exact hd | exact List.mem_cons_of_mem _ hd

theorem runTask_settles (rp md5 : String → String) (pd : String → Bool)
    (fs : FS) (t : Task) : taskSettled rp pd (runTask rp md5 pd fs t).fs t := by
  cases hu : t.url with
  | none => exact Or.inl hu
  | some u =>
    by_cases hf : pathExists fs (t.folder rp) = true
    · exact Or.inr (Or.inl (pathExists_mono (runTask_grows rp md5 pd fs t) hf))
    · by_cases hpd : pd (t.folder rp) = true
      · exact Or.inr (Or.inr hpd)
      · refine Or.inr (Or.inl ?_)
        have hf' : pathExists fs (outputFolder rp t.output t.username t.mediaType) = false := by
          simpa [Task.folder] using hf
        have hpd' : pd (outputFolder rp t.output t.username t.mediaType) = false := by
          simpa [Task.folder] using hpd
        have hdirs : (runTask rp md5 pd fs t).fs =
            ⟨fs.files, outputFolder rp t.output t.username t.mediaType :: fs.dirs⟩ := by
          simp only [runTask, hu]
          exact downloadMedia_fs_of_mkdir rp md5 pd fs u t.username t.mediaType t.output hf' hpd'
        rw [hdirs]
        simp [pathExists, Task.folder, List.contains_cons]

theorem taskSettled_mono {rp : String → String} {pd : String → Bool} {fs fs' : FS}
    {t : Task} (hg : FS.grows fs fs') (h : taskSettled rp pd fs t) :
    taskSettled rp pd fs' t := by
  rcases h with h | h | h
  · exact Or.inl h
  · exact Or.inr (Or.inl (pathExists_mono hg h))
  · exact Or.inr (Or.inr h)

theorem runTasks_grows (rp md5 : String → String) (pd : String → Bool)
    (fs : FS) (ts : List Task) : FS.grows fs (runTasks rp md5 pd fs ts).1 := by
  induction ts generalizing fs with
  | nil => exact grows_refl fs
  | cons t rest ih =>
    simp only [runTasks]
    exact grows_trans (runTask_grows rp md5 pd fs t) (ih _)

theorem runTasks_settles_all (rp md5 : String → String) (pd : String → Bool)
    (fs : FS) (ts : List Task) :
    ∀ t ∈ ts, taskSettled rp pd (runTasks rp md5 pd fs ts).1 t := by
  induction ts generalizing fs with
  | nil => intro t ht; cases ht
  | cons t rest ih =>
    intro t' ht'
    rcases List.mem_cons.mp ht' with h | h
    · subst h
      simp only [runTasks]
      exact taskSettled_mono (runTasks_grows rp md5 pd _ rest)
        (runTask_settles rp md5 pd fs t')
    · simp only [runTasks]
      exact ih _ t' h

theorem runTask_fs_of_settled {rp md5 : String → String} {pd : String → Bool}
    {fs : FS} {t : Task} (h : taskSettled rp pd fs t) :
    (runTask rp md5 pd fs t).fs = fs := by
  cases hu : t.url with
  | none => simp [runTask, downloadMedia, hu]
  | some u =>
    rcases h with h | h | h
    · rw [hu] at h; cases h
    · have h' : pathExists fs (outputFolder rp t.output t.username t.mediaType) = true := by
        simpa [Task.folder] using h
      simp only [runTask, hu]
      exact downloadMedia_fs_of_exists rp md5 pd fs u t.username t.mediaType t.output h'
    · by_cases hf : pathExists fs (outputFolder rp t.output t.username t.mediaType) = true
      · simp only [runTask, hu]
        exact downloadMedia_fs_of_exists rp md5 pd fs u t.username t.mediaType t.output hf
      · have hf' : pathExists fs (outputFolder rp t.output t.username t.mediaType) = false := by
          simpa using hf
        have h' : pd (outputFolder rp t.output t.username t.mediaType) = true := by
          simpa [Task.folder] using h
        simp only [runTask, hu]
        exact downloadMedia_fs_of_denied rp md5 pd fs u t.username t.mediaType t.output hf' h'

theorem runTasks_fix_of_settled {rp md5 : String → String} {pd : String → Bool}
    {fs : FS} {ts : List Task} (h : ∀ t ∈ ts, taskSettled rp pd fs t) :
    (runTasks rp md5 pd fs ts).1 = fs := by
  induction ts with
  | nil => rfl
  | cons t rest ih =>
    have h1 : (runTask rp md5 pd fs t).fs = fs :=
      runTask_fs_of_settled (h t (List.mem_cons_self _ _))
    simp only [runTasks]
    rw [h1]
    exact ih (fun t' ht' => h t' (List.mem_cons_of_mem _ ht'))

/-- C3 counterexample: running the single image task of user `alice` twice
from an empty filesystem, the second run's only task ends in the not-exists
branch, not `skipped_exists` — because the first run wrote no media file
(the download call is commented out and the exact hash path never comes to
exist), refuting "every download task of the second run results in
skipped_exists". -/
theorem second_run_not_all_skipped :
    (runTasks rpC md5C pdC (runTasks rpC md5C pdC fs0 [t0]).1 [t0]).2.1 ≠
      [DownloadOutcome.skipExists] := by
  decide

/-- C3 (amended): a second run over the same task list leaves the
filesystem exactly as the first run left it and performs zero network
fetches — but not by skipping: on an initially empty filesystem the second
run's task repeats the not-exists branch (no media file was ever written,
so the `skipped_exists` branch is never reached for it). -/
theorem second_run_unchanged_no_fetch (rp md5 : String → String) (pd : String → Bool)
    (fs : FS) (ts : List Task) :
    (runTasks rp md5 pd (runTasks rp md5 pd fs ts).1 ts).1 =
      (runTasks rp md5 pd fs ts).1 ∧
    (runTasks rp md5 pd (runTasks rp md5 pd fs ts).1 ts).2.2.all
      (fun a => !isNetworkRequest a) = true ∧
    (runTasks rpC md5C pdC (runTasks rpC md5C pdC fs0 [t0]).1 [t0]).2.1 =
      [DownloadOutcome.notExistsBranch] := by
  refine ⟨runTasks_fix_of_settled (runTasks_settles_all rp md5 pd fs ts),
    all_fst_of_all_and (runTasks_actions_clean rp md5 pd _ ts), ?_⟩
  decide

end Picuki
